import Mathlib

/-!
Shallow embedding of `bot.py` (repository Wanna): link classifier, queue
store, cooldown controller (EMA), export generator, outcome-report command,
database initialization, and the account-onboarding state machine.

Python strings are modelled as lists of code points (`List Nat`); Python
floats in the cooldown controller are modelled as exact rationals (`ℚ`),
which matches the arithmetic the spec describes.
-/

namespace Wanna

/-! ## Python string model -/

/-- A Python string, as its list of code points. -/
abbrev Str := List Nat

/-- Encode a Lean string literal as a `Str`. -/
def s2l (s : String) : Str := s.data.map Char.toNat

/-- Python `str.isspace` on one code point, restricted to the ASCII
whitespace used by `str.strip`/`str.split`: space, tab, LF, CR, VT, FF. -/
def pyIsSpace (n : Nat) : Bool :=
  decide (n = 32 ∨ n = 9 ∨ n = 10 ∨ n = 13 ∨ n = 11 ∨ n = 12)

/-- ASCII lowercasing of one code point (Python `str.lower` on ASCII). -/
def asciiLower (n : Nat) : Nat := if 65 ≤ n ∧ n ≤ 90 then n + 32 else n

/-- Python `str.lower` (ASCII model). -/
def pyLower (l : Str) : Str := l.map asciiLower

/-- Python `str.strip()`: remove whitespace from both ends. -/
def pyStrip (l : Str) : Str :=
  ((l.dropWhile pyIsSpace).reverse.dropWhile pyIsSpace).reverse

/-- Python `str.isdigit` (ASCII model): nonempty and all decimal digits. -/
def pyIsDigit (l : Str) : Bool :=
  !l.isEmpty && l.all (fun n => 48 ≤ n && n ≤ 57)

/-- Python `int(...)` on a digit string. -/
def parseNat (l : Str) : Nat := l.foldl (fun a n => 10 * a + (n - 48)) 0

/-- Helper for `pySplit`: accumulate the current word (reversed). -/
def pySplitAux : Str → Str → List Str
  | [], acc => if acc.isEmpty then [] else [acc.reverse]
  | c :: rest, acc =>
    if pyIsSpace c then
      if acc.isEmpty then pySplitAux rest [] else acc.reverse :: pySplitAux rest []
    else pySplitAux rest (c :: acc)

/-- Python `str.split()` with no argument: split on whitespace runs,
dropping empty pieces. -/
def pySplit (l : Str) : List Str := pySplitAux l []

/-- Python `needle in hay` on strings: `needle` occurs as a contiguous
substring of `hay`. -/
def isSubstr (needle : Str) : Str → Bool
  | [] => needle.isEmpty
  | c :: rest => needle.isPrefixOf (c :: rest) || isSubstr needle rest

/-! ## Link classifier (`classify_link`, bot.py lines 131-141) -/

/-- The category tags stored in the `kind` column.  The source uses the
string `"unknown"` for what the spec calls the `unclassified` category. -/
inductive Kind where
  | unknown
  | group_invite
  | bot
deriving DecidableEq

/-- The branch structure of `classify_link` after the input has been
stripped and lowercased (`u = url.strip().lower()`). -/
def classifyCore (u : Str) : Kind :=
  if (s2l "@").isPrefixOf u then .unknown
  else if isSubstr (s2l "t.me/joinchat") u || isSubstr (s2l "/+/") u
      || isSubstr (s2l "t.me/+") u || isSubstr (s2l "joinchat") u then .group_invite
  else if isSubstr (s2l "t.me/") u
      && (isSubstr (s2l "bot") u || (s2l "bot").isSuffixOf u) then .bot
  else .unknown

/-- `classify_link(url)`: strip and lowercase, then apply the rules in
priority order (bot.py lines 131-141). -/
def classify_link (url : Str) : Kind := classifyCore (pyLower (pyStrip url))

/-! ## Cooldown controller (accounts table) -/

/-- `EMA_ALPHA = 0.3` (bot.py line 39). -/
def EMA_ALPHA : ℚ := 3 / 10

/-- `DEFAULT_COOLDOWN = 120` seconds (bot.py line 40). -/
def DEFAULT_COOLDOWN : ℚ := 120

/-- One row of the `accounts` table. -/
structure AccountRow where
  session_name : Str
  owner_telegram_id : Int
  ema_cooldown : ℚ
deriving DecidableEq

/-- The `accounts` table, in insertion order. -/
abbrev AccountsDb := List AccountRow

/-- `SELECT ... FROM accounts WHERE session_name=?` (first match). -/
def lookupAccount : AccountsDb → Str → Option AccountRow
  | [], _ => none
  | r :: t, n => if r.session_name == n then some r else lookupAccount t n

/-- `add_account_meta` (bot.py lines 105-111): `INSERT OR IGNORE` of
`(session_name, owner, DEFAULT_COOLDOWN)`. -/
def add_account_meta (db : AccountsDb) (n : Str) (owner : Int) : AccountsDb :=
  match lookupAccount db n with
  | some _ => db
  | none => db ++ [⟨n, owner, DEFAULT_COOLDOWN⟩]

/-- `update_ema` (bot.py lines 113-128): if the row exists, store and
return `EMA_ALPHA·observed + (1-EMA_ALPHA)·prev`; otherwise insert the row
with owner `0` and the default cooldown and return the default. -/
def update_ema (db : AccountsDb) (n : Str) (observed : ℚ) : AccountsDb × ℚ :=
  match lookupAccount db n with
  | some r =>
    (db.map fun row =>
      if row.session_name == n then
        { row with ema_cooldown :=
            EMA_ALPHA * observed + (1 - EMA_ALPHA) * r.ema_cooldown }
      else row,
     EMA_ALPHA * observed + (1 - EMA_ALPHA) * r.ema_cooldown)
  | none => (db ++ [⟨n, 0, DEFAULT_COOLDOWN⟩], DEFAULT_COOLDOWN)

/-! ## Queue store (links table) -/

/-- The `status` column; the core only ever writes `pending`. -/
inductive LinkStatus where
  | pending
  | done
deriving DecidableEq

/-- One row of the `links` table. -/
structure LinkRow where
  url : Str
  kind : Kind
  status : LinkStatus
  last_checked : Int
  tries : Nat
deriving DecidableEq

/-- The `links` table, in insertion order. -/
abbrev LinksDb := List LinkRow

/-- Does a row with this url exist (the UNIQUE constraint check)? -/
def linkPresent (db : LinksDb) (u : Str) : Bool := db.any (fun r => r.url == u)

/-- `INSERT OR IGNORE INTO links (url, kind) VALUES (?, ?)`; the remaining
columns take their DDL defaults (`status='pending'`, `0`, `0`). -/
def insertOrIgnoreLink (db : LinksDb) (u : Str) (k : Kind) : LinksDb :=
  if linkPresent db u then db else db ++ [⟨u, k, .pending, 0, 0⟩]

/-- `classify_msg` (bot.py lines 396-410): texts starting with `http` or
`@` are classified and inserted (url stripped); everything else ignored. -/
def classify_msg (db : LinksDb) (text : Str) : LinksDb :=
  if (s2l "http").isPrefixOf text || (s2l "@").isPrefixOf text then
    insertOrIgnoreLink db (pyStrip text) (classify_link text)
  else db

/-! ## Export generator (`cmd_export_assist`, bot.py lines 341-371) -/

/-- One line of the assist artifact.  The source writes the header with a
trailing `"\n\n"`, i.e. a header line followed by a blank line. -/
inductive ExportLine where
  | header (session_name : Str) (ema : ℚ)
  | blank
  | urlLine (u : Str)
deriving DecidableEq

/-- The `WHERE status='pending' AND (kind='group_invite' OR kind='unknown')`
filter of the export query. -/
def exportMatch (r : LinkRow) : Bool :=
  r.status == .pending && (r.kind == .group_invite || r.kind == .unknown)

/-- The urls selected by the export query, in table order. -/
def pendingExportUrls (db : LinksDb) : List Str :=
  (db.filter exportMatch).map (fun r => r.url)

/-- Cooldown used by the export: the stored estimate, or the default when
the session is unknown. -/
def emaFor (accounts : AccountsDb) (n : Str) : ℚ :=
  match lookupAccount accounts n with
  | some r => r.ema_cooldown
  | none => DEFAULT_COOLDOWN

/-- `cmd_export_assist`: with no matching pending links reply "No pending
group links" and produce no artifact (`none`); otherwise produce the file
whose lines are the recommended-delay header, a blank line (from the
`"\n\n"` write), then one url per line. -/
def cmd_export_assist (links : LinksDb) (accounts : AccountsDb)
    (session_name : Str) : Option (List ExportLine) :=
  let urls := pendingExportUrls links
  if urls.isEmpty then none
  else some (.header session_name (emaFor accounts session_name)
    :: .blank :: urls.map .urlLine)

/-! ## Outcome report (`cmd_report`, bot.py lines 373-394) -/

/-- The reply of `/report`: the usage message, or the recorded new EMA. -/
inductive ReportReply where
  | usage
  | recorded (newEma : ℚ)
deriving DecidableEq

/-- `cmd_report`: parse `/report <session_name> <ok|fail|flood <seconds>>`
from the message text; `ok` feeds `DEFAULT_COOLDOWN*0.9`, `fail` feeds
`DEFAULT_COOLDOWN*1.2`, `flood n` feeds `n`; anything else replies with the
usage message and leaves the table unchanged. -/
def cmd_report (db : AccountsDb) (text : Str) : AccountsDb × ReportReply :=
  let parts := pySplit text
  if parts.length < 3 then (db, .usage)
  else
    let session_name := pyStrip (parts.getD 1 [])
    let res := pyStrip (parts.getD 2 [])
    if res = s2l "ok" then
      let p := update_ema db session_name (DEFAULT_COOLDOWN * (9 / 10))
      (p.1, .recorded p.2)
    else if res = s2l "fail" then
      let p := update_ema db session_name (DEFAULT_COOLDOWN * (6 / 5))
      (p.1, .recorded p.2)
    else if res = s2l "flood" ∧ 4 ≤ parts.length ∧ pyIsDigit (parts.getD 3 []) = true then
      let p := update_ema db session_name ((parseNat (parts.getD 3 []) : ℚ))
      (p.1, .recorded p.2)
    else (db, .usage)

/-! ## Database initialization (`init_db`, bot.py lines 55-75)

`init_db` issues two `CREATE TABLE` statements.  The second passes
`DEFAULT_COOLDOWN` as a bound parameter for the `ema_cooldown` column
`DEFAULT` clause.  SQLite requires a column DEFAULT to be a constant
(literal or constant expression); a bound parameter is not allowed in DDL,
so preparing that statement fails with `sqlite3.OperationalError`.  We
model a column default as either a constant or a parameter, and DDL
acceptance as "every default is a constant". -/

/-- A column DEFAULT clause: absent, a constant literal, or a bound
parameter (`?`). -/
inductive SqlDefault where
  | absent
  | lit (v : Int)
  | litStr (v : Str)
  | param
deriving DecidableEq

/-- SQLite accepts a column DEFAULT only when it is constant. -/
def defaultConstant : SqlDefault → Bool
  | .param => false
  | _ => true

/-- A column of a `CREATE TABLE` statement: name and DEFAULT clause. -/
structure ColumnDef where
  name : Str
  dflt : SqlDefault
deriving DecidableEq

/-- SQLite accepts the DDL iff every column default is constant. -/
def ddlAccepted (cols : List ColumnDef) : Bool :=
  cols.all (fun c => defaultConstant c.dflt)

/-- The `links` DDL of `init_db` (bot.py lines 58-66): all defaults are
literals. -/
def linksTableCols : List ColumnDef :=
  [⟨s2l "id", .absent⟩, ⟨s2l "url", .absent⟩,
   ⟨s2l "kind", .litStr (s2l "unknown")⟩,
   ⟨s2l "status", .litStr (s2l "pending")⟩,
   ⟨s2l "last_checked", .lit 0⟩, ⟨s2l "tries", .lit 0⟩]

/-- The `accounts` DDL of `init_db` (bot.py lines 67-73): the
`ema_cooldown` DEFAULT is supplied as a bound parameter. -/
def accountsTableCols : List ColumnDef :=
  [⟨s2l "id", .absent⟩, ⟨s2l "session_name", .absent⟩,
   ⟨s2l "owner_telegram_id", .absent⟩, ⟨s2l "ema_cooldown", .param⟩]

/-- `init_db`: execute the two `CREATE TABLE` statements in order; a
rejected statement raises (`Except.error`) and the rest never runs. -/
def init_db : Except Str Unit :=
  if ddlAccepted linksTableCols then
    if ddlAccepted accountsTableCols then .ok ()
    else .error (s2l "OperationalError: parameters are not allowed in the accounts DDL")
  else .error (s2l "OperationalError: links DDL rejected")

/-! ## Onboarding state machine (bot.py lines 143-323)

One operator's conversational flow, with the aiogram FSM state, the
per-operator `pending_login` entry, the shared `accounts` table, and — as
environment bookkeeping — the set of open provider connections (numbered
by allocation order) and the per-attempt log of provider calls
(connect / send-code / sign-in / second-factor sign-in; `disconnect` is
not one of the spec's provider steps and is tracked only through
`openConns`).  Completions are recorded as ghost state `(name, conn)`. -/

/-- The aiogram FSM states of `AddAccount`, plus the cleared state. -/
inductive FsmState where
  | idle
  | waiting_session_name
  | waiting_api_id
  | waiting_api_hash
  | waiting_phone
  | waiting_code
  | waiting_password
deriving DecidableEq

/-- The aiogram FSM data written by `state.update_data`. -/
structure FlowData where
  session_name : Str := []
  api_id : Nat := 0
  api_hash : Str := []
deriving DecidableEq

/-- One `pending_login` entry: the live client (by connection number) and
the captured flow context (bot.py lines 218-224). -/
structure PendingObj where
  conn : Nat
  phone : Str
  session_name : Str
  api_id : Nat
  api_hash : Str
deriving DecidableEq

/-- The kinds of Remote Account Provider calls the spec names. -/
inductive CallKind where
  | connect
  | sendCode
  | signInCode
  | signInPassword
deriving DecidableEq

/-- One provider call and whether it succeeded.  The second-factor-required
outcome of a code sign-in is a controlled transition, not a failure. -/
structure CallRec where
  kind : CallKind
  ok : Bool
deriving DecidableEq

/-- Environment outcome of `got_phone`'s provider interaction:
`client.connect()` raises, `client.send_code_request` raises, or both
succeed. -/
inductive PhoneRes where
  | connectFail
  | sendCodeFail
  | ok
deriving DecidableEq

/-- Environment outcome of `got_code`'s sign-in: outright success,
`SessionPasswordNeededError`, or a generic failure followed by the
fallback `client.sign_in(code=code)` attempt (bot.py lines 249-259), which
itself succeeds or fails.  `fileOk` tells whether the persistence
`file_client.connect()` (line 280) succeeds on the success paths. -/
inductive CodeRes where
  | success (fileOk : Bool)
  | passwordNeeded
  | failFallbackOk (fileOk : Bool)
  | failFallbackFail
deriving DecidableEq

/-- Environment outcome of `got_password`'s second-factor sign-in. -/
inductive PwdRes where
  | success (fileOk : Bool)
  | fail
deriving DecidableEq

/-- Provider oracle attached to an operator message: which outcome each
potential provider interaction would have.  Fields irrelevant to the
current state are ignored. -/
structure ProvOracle where
  phoneRes : PhoneRes := .ok
  codeRes : CodeRes := .success true
  pwdRes : PwdRes := .success true

/-- An inbound operator event: the `/add_account` command, or a plain
text message (with its provider oracle). -/
inductive Ev where
  | addAccount
  | text (t : Str) (o : ProvOracle)

/-- The operator's telegram id (`msg.from_user.id`), fixed for the single
operator modelled. -/
def OPERATOR_ID : Int := 1

/-- The whole mutable state touched by the onboarding handlers. -/
structure BotState where
  fsm : FsmState := .idle
  data : FlowData := {}
  pending : Option PendingObj := none
  accounts : AccountsDb := []
  openConns : List Nat := []
  nextConn : Nat := 0
  completions : List (Str × Nat) := []
  callLog : List CallRec := []
  archive : List (List CallRec) := []

/-- `add_account_start` (bot.py lines 165-168): set the FSM state; the
`pending_login` entry of a previous flow is NOT touched.  Starting a new
attempt archives the previous attempt's call log (ghost bookkeeping). -/
def add_account_start (s : BotState) : BotState :=
  { s with fsm := .waiting_session_name,
           archive := s.archive ++ [s.callLog], callLog := [] }

/-- `got_session_name` (bot.py lines 170-179): non-empty after strip, else
re-prompt in state. -/
def got_session_name (s : BotState) (t : Str) : BotState :=
  if (pyStrip t).isEmpty then s
  else { s with data := { s.data with session_name := pyStrip t },
                fsm := .waiting_api_id }

/-- `got_api_id` (bot.py lines 181-189): must be digits, else re-prompt. -/
def got_api_id (s : BotState) (t : Str) : BotState :=
  if pyIsDigit (pyStrip t) then
    { s with data := { s.data with api_id := parseNat (pyStrip t) },
             fsm := .waiting_api_hash }
  else s

/-- `got_api_hash` (bot.py lines 191-196): accepted verbatim. -/
def got_api_hash (s : BotState) (t : Str) : BotState :=
  { s with data := { s.data with api_hash := pyStrip t }, fsm := .waiting_phone }

/-- `got_phone` (bot.py lines 198-226): connect and request the code; on
failure disconnect (if connected), clear the FSM and abort; on success
store the live client in `pending_login` — overwriting, WITHOUT
disconnecting, any previous entry — and advance. -/
def got_phone (s : BotState) (t : Str) (res : PhoneRes) : BotState :=
  match res with
  | .connectFail =>
    { s with fsm := .idle, data := {},
             callLog := s.callLog ++ [⟨.connect, false⟩] }
  | .sendCodeFail =>
    { s with fsm := .idle, data := {}, nextConn := s.nextConn + 1,
             callLog := s.callLog ++ [⟨.connect, true⟩, ⟨.sendCode, false⟩] }
  | .ok =>
    { s with fsm := .waiting_code,
             pending := some ⟨s.nextConn, pyStrip t, s.data.session_name,
                              s.data.api_id, s.data.api_hash⟩,
             openConns := s.openConns ++ [s.nextConn],
             nextConn := s.nextConn + 1,
             callLog := s.callLog ++ [⟨.connect, true⟩, ⟨.sendCode, true⟩] }

/-- The shared success tail of `got_code`/`got_password` (bot.py lines
267-289 and 310-323): disconnect the auth client, persist the session via
a file-backed client (a fresh connect/disconnect, with a plain file write
as fallback when that connect fails), register the account, drop the
`pending_login` entry and clear the FSM. -/
def completeFlow (s : BotState) (obj : PendingObj) (fileOk : Bool)
    (calls : List CallRec) : BotState :=
  { s with fsm := .idle, data := {}, pending := none,
           openConns := s.openConns.erase obj.conn,
           nextConn := s.nextConn + 1,
           accounts := add_account_meta s.accounts obj.session_name OPERATOR_ID,
           completions := s.completions ++ [(obj.session_name, obj.conn)],
           callLog := s.callLog ++ calls ++ [⟨.connect, fileOk⟩] }

/-- `got_code` (bot.py lines 228-289): no pending login aborts; sign-in
may succeed, require the second factor, or fail generically — in which
case the fallback `client.sign_in(code=code)` is attempted; if that also
fails, disconnect and abort. -/
def got_code (s : BotState) (t : Str) (res : CodeRes) : BotState :=
  match s.pending with
  | none => { s with fsm := .idle, data := {} }
  | some obj =>
    match res with
    | .passwordNeeded =>
      { s with fsm := .waiting_password, callLog := s.callLog ++ [⟨.signInCode, true⟩] }
    | .success fileOk => completeFlow s obj fileOk [⟨.signInCode, true⟩]
    | .failFallbackOk fileOk =>
      completeFlow s obj fileOk [⟨.signInCode, false⟩, ⟨.signInCode, true⟩]
    | .failFallbackFail =>
      { s with fsm := .idle, data := {}, pending := none,
               openConns := s.openConns.erase obj.conn,
               callLog := s.callLog ++ [⟨.signInCode, false⟩, ⟨.signInCode, false⟩] }

/-- `got_password` (bot.py lines 291-323): second-factor sign-in; failure
disconnects and aborts, success persists as in `got_code`. -/
def got_password (s : BotState) (t : Str) (res : PwdRes) : BotState :=
  match s.pending with
  | none => { s with fsm := .idle, data := {} }
  | some obj =>
    match res with
    | .success fileOk => completeFlow s obj fileOk [⟨.signInPassword, true⟩]
    | .fail =>
      { s with fsm := .idle, data := {}, pending := none,
               openConns := s.openConns.erase obj.conn,
               callLog := s.callLog ++ [⟨.signInPassword, false⟩] }

/-- Dispatch of one inbound event, following aiogram's routing: the
`/add_account` command is matched first; other texts go to the handler of
the current FSM state; with no flow in progress a text falls through to
`classify_msg`, which touches only the links table. -/
def step (s : BotState) : Ev → BotState
  | .addAccount => add_account_start s
  | .text t o =>
    match s.fsm with
    | .idle => s
    | .waiting_session_name => got_session_name s t
    | .waiting_api_id => got_api_id s t
    | .waiting_api_hash => got_api_hash s t
    | .waiting_phone => got_phone s t o.phoneRes
    | .waiting_code => got_code s t o.codeRes
    | .waiting_password => got_password s t o.pwdRes

/-- The initial state: fresh process, empty accounts table. -/
def initState : BotState := {}

/-- Run a sequence of operator events from the initial state. -/
def run (evs : List Ev) : BotState := evs.foldl step initState

/-! ## Call-log predicates for the retry claims -/

/-- The spec's failure semantics as claimed: a failed provider call is the
last provider call of its flow attempt (no call ever follows a failure). -/
def noCallAfterFailure (l : List CallRec) : Bool :=
  l.dropLast.all (fun r => r.ok)

/-- The failure semantics the code implements: a failed call followed by
further calls can only be a code sign-in whose immediate successor is the
fallback code sign-in. -/
def fallbackOnlyB : List CallRec → Bool
  | a :: b :: rest =>
    (a.ok || (a.kind == .signInCode && b.kind == .signInCode)) && fallbackOnlyB (b :: rest)
  | _ => true

/-! ## String lemmas -/

theorem asciiLower_asciiLower (n : Nat) :
    asciiLower (asciiLower n) = asciiLower n := by
  unfold asciiLower
  split_ifs <;> omega

theorem pyIsSpace_asciiLower (n : Nat) :
    pyIsSpace (asciiLower n) = pyIsSpace n := by
  unfold asciiLower pyIsSpace
  split_ifs with h
  · rw [decide_eq_decide]; omega
  · rfl

theorem pyLower_pyLower (l : Str) : pyLower (pyLower l) = pyLower l := by
  induction l with
  | nil => rfl
  | cons a t ih =>
    simp only [pyLower, List.map_cons] at ih ⊢
    rw [asciiLower_asciiLower, ih]

theorem dropWhile_pyLower (l : Str) :
    (pyLower l).dropWhile pyIsSpace = pyLower (l.dropWhile pyIsSpace) := by
  induction l with
  | nil => rfl
  | cons a t ih =>
    simp only [pyLower, List.map_cons, List.dropWhile_cons, pyIsSpace_asciiLower]
    cases h : pyIsSpace a
    · simp only [if_neg Bool.false_ne_true, List.map_cons]
    · simpa only [if_pos rfl] using ih

theorem reverse_pyLower (l : Str) : (pyLower l).reverse = pyLower l.reverse := by
  simpa only [pyLower] using (List.map_reverse asciiLower l).symm

theorem pyStrip_pyLower (l : Str) : pyStrip (pyLower l) = pyLower (pyStrip l) := by
  unfold pyStrip
  rw [dropWhile_pyLower, reverse_pyLower, dropWhile_pyLower, reverse_pyLower]

theorem classify_link_pyLower (s : Str) :
    classify_link (pyLower s) = classify_link s := by
  unfold classify_link
  rw [pyStrip_pyLower, pyLower_pyLower]

/-! ## Cooldown controller lemmas -/

theorem lookupAccount_map_update (db : AccountsDb) (n : Str) (e : ℚ)
    (r : AccountRow) (h : lookupAccount db n = some r) :
    lookupAccount (db.map fun row =>
        if row.session_name == n then { row with ema_cooldown := e } else row) n
      = some { r with ema_cooldown := e } := by
  induction db with
  | nil => simp [lookupAccount] at h
  | cons a t ih =>
    by_cases ha : (a.session_name == n) = true
    · rw [lookupAccount, if_pos ha] at h
      obtain rfl : a = r := Option.some.inj h
      have h1 : (if (a.session_name == n) = true then
          { a with ema_cooldown := e } else a) = { a with ema_cooldown := e } := if_pos ha
      simp only [List.map_cons, lookupAccount, h1]
      rw [if_pos (show (({ a with ema_cooldown := e } : AccountRow).session_name == n)
        = true from ha)]
    · rw [lookupAccount, if_neg ha] at h
      have h1 : (if (a.session_name == n) = true then
          { a with ema_cooldown := e } else a) = a := if_neg ha
      simp only [List.map_cons, lookupAccount, h1]
      rw [if_neg ha]
      exact ih h

theorem update_ema_found (db : AccountsDb) (n : Str) (obs : ℚ)
    (r : AccountRow) (h : lookupAccount db n = some r) :
    (update_ema db n obs).2 = EMA_ALPHA * obs + (1 - EMA_ALPHA) * r.ema_cooldown ∧
    lookupAccount (update_ema db n obs).1 n
      = some { r with ema_cooldown := EMA_ALPHA * obs + (1 - EMA_ALPHA) * r.ema_cooldown } := by
  unfold update_ema
  rw [h]
  exact ⟨rfl, lookupAccount_map_update db n _ r h⟩

theorem lookupAccount_mem {db : AccountsDb} {n : Str} {r : AccountRow}
    (h : lookupAccount db n = some r) : r ∈ db := by
  induction db with
  | nil => simp [lookupAccount] at h
  | cons a t ih =>
    rw [lookupAccount] at h
    split_ifs at h
    · exact (Option.some.inj h) ▸ List.mem_cons_self a t
    · exact List.mem_cons_of_mem a (ih h)

/-! ## Cooldown controller call sequences (for the positivity invariant) -/

/-- One call against the cooldown controller: `register` is
`add_account_meta`, `update` is `update_ema`. -/
inductive Op where
  | register (n : Str) (owner : Int)
  | update (n : Str) (observed : ℚ)

/-- An `update`'s observed seconds is non-negative (`register` has none). -/
def obsNonnegB : Op → Bool
  | .update _ obs => decide (0 ≤ obs)
  | .register _ _ => true

/-- Apply one controller call to the accounts table. -/
def applyOp (db : AccountsDb) : Op → AccountsDb
  | .register n owner => add_account_meta db n owner
  | .update n obs => (update_ema db n obs).1

theorem DEFAULT_COOLDOWN_pos : 0 < DEFAULT_COOLDOWN := by
  norm_num [DEFAULT_COOLDOWN]

theorem add_account_meta_pos (db : AccountsDb) (n : Str) (owner : Int)
    (hdb : ∀ r ∈ db, 0 < r.ema_cooldown) :
    ∀ r ∈ add_account_meta db n owner, 0 < r.ema_cooldown := by
  intro r hr
  unfold add_account_meta at hr
  split at hr
  · exact hdb r hr
  · rcases List.mem_append.mp hr with h1 | h1
    · exact hdb r h1
    · rw [List.mem_singleton] at h1
      subst h1
      exact DEFAULT_COOLDOWN_pos

theorem update_ema_pos (db : AccountsDb) (n : Str) (obs : ℚ) (hobs : 0 ≤ obs)
    (hdb : ∀ r ∈ db, 0 < r.ema_cooldown) :
    ∀ r ∈ (update_ema db n obs).1, 0 < r.ema_cooldown := by
  intro r hr
  unfold update_ema at hr
  split at hr
  case _ r0 heq =>
    simp only at hr
    rcases List.mem_map.mp hr with ⟨row, hrow, rfl⟩
    split_ifs
    · have h1 : 0 ≤ EMA_ALPHA * obs :=
        mul_nonneg (by norm_num [EMA_ALPHA]) hobs
      have h2 : 0 < (1 - EMA_ALPHA) * r0.ema_cooldown :=
        mul_pos (by norm_num [EMA_ALPHA]) (hdb r0 (lookupAccount_mem heq))
      show 0 < EMA_ALPHA * obs + (1 - EMA_ALPHA) * r0.ema_cooldown
      linarith
    · exact hdb row hrow
  case _ heq =>
    simp only at hr
    rcases List.mem_append.mp hr with h1 | h1
    · exact hdb r h1
    · rw [List.mem_singleton] at h1
      subst h1
      exact DEFAULT_COOLDOWN_pos

theorem foldl_applyOp_pos (ops : List Op) (db : AccountsDb)
    (hops : ∀ op ∈ ops, obsNonnegB op = true)
    (hdb : ∀ r ∈ db, 0 < r.ema_cooldown) :
    ∀ r ∈ ops.foldl applyOp db, 0 < r.ema_cooldown := by
  induction ops generalizing db with
  | nil => exact hdb
  | cons op rest ih =>
    rw [List.foldl_cons]
    refine ih (applyOp db op) (fun o ho => hops o (List.mem_cons_of_mem op ho)) ?_
    cases op with
    | register n owner => exact add_account_meta_pos db n owner hdb
    | update n obs =>
      have hobs : (0 : ℚ) ≤ obs := by
        have := hops _ (List.mem_cons_self _ _)
        simpa [obsNonnegB] using this
      exact update_ema_pos db n obs hobs hdb

/-! ## Queue store lemmas -/

theorem linkPresent_false (db : LinksDb) (u : Str)
    (habs : ∀ r ∈ db, r.url ≠ u) : linkPresent db u = false := by
  rw [← Bool.not_eq_true, linkPresent, List.any_eq_true]
  rintro ⟨r, hr, hru⟩
  exact habs r hr (by simpa using hru)

theorem linkPresent_true (db : LinksDb) (u : Str) (r : LinkRow)
    (hr : r ∈ db) (hu : r.url = u) : linkPresent db u = true := by
  rw [linkPresent, List.any_eq_true]
  exact ⟨r, hr, by simp [hu]⟩

/-! ## Accounts table lemmas for the onboarding invariant -/

theorem lookupAccount_name {db : AccountsDb} {n : Str} {r : AccountRow}
    (h : lookupAccount db n = some r) : r.session_name = n := by
  induction db with
  | nil => simp [lookupAccount] at h
  | cons a t ih =>
    rw [lookupAccount] at h
    split_ifs at h with ha
    · obtain rfl : a = r := Option.some.inj h
      exact by simpa using ha
    · exact ih h

theorem lookupAccount_none {db : AccountsDb} {n : Str}
    (h : lookupAccount db n = none) : ∀ r ∈ db, r.session_name ≠ n := by
  induction db with
  | nil => intro r hr; exact absurd hr (List.not_mem_nil r)
  | cons a t ih =>
    rw [lookupAccount] at h
    split_ifs at h with ha
    intro r hr
    rcases List.mem_cons.mp hr with rfl | hrt
    · exact fun hc => ha (by simp [hc])
    · exact ih h r hrt

theorem add_account_meta_mem {db : AccountsDb} (n : Str) (o : Int)
    {r : AccountRow} (hr : r ∈ db) : r ∈ add_account_meta db n o := by
  unfold add_account_meta
  split
  · exact hr
  · exact List.mem_append.mpr (Or.inl hr)

theorem add_account_meta_stores (db : AccountsDb) (n : Str) (o : Int) :
    ∃ r ∈ add_account_meta db n o, r.session_name = n := by
  unfold add_account_meta
  split
  case _ r0 heq => exact ⟨r0, lookupAccount_mem heq, lookupAccount_name heq⟩
  case _ heq =>
    exact ⟨⟨n, o, DEFAULT_COOLDOWN⟩, List.mem_append.mpr (Or.inr (by simp)), rfl⟩

theorem add_account_meta_default (db : AccountsDb) (n : Str) (o : Int)
    (hdb : ∀ r ∈ db, r.ema_cooldown = DEFAULT_COOLDOWN) :
    ∀ r ∈ add_account_meta db n o, r.ema_cooldown = DEFAULT_COOLDOWN := by
  intro r hr
  unfold add_account_meta at hr
  split at hr
  · exact hdb r hr
  · rcases List.mem_append.mp hr with h1 | h1
    · exact hdb r h1
    · rw [List.mem_singleton] at h1
      subst h1
      rfl

theorem add_account_meta_nodup (db : AccountsDb) (n : Str) (o : Int)
    (hdb : (db.map (fun r => r.session_name)).Nodup) :
    ((add_account_meta db n o).map (fun r => r.session_name)).Nodup := by
  unfold add_account_meta
  split
  · exact hdb
  case _ heq =>
    rw [List.map_append, List.nodup_append]
    refine ⟨hdb, by simp, ?_⟩
    intro a ha hb
    rcases List.mem_map.mp ha with ⟨r, hr, rfl⟩
    simp only [List.map_cons, List.map_nil, List.mem_singleton] at hb
    exact lookupAccount_none heq r hr hb

/-! ## Call-log lemmas -/

theorem fallbackOnlyB_append (pre suf : List CallRec)
    (hpre : ∀ r ∈ pre, r.ok = true) (hsuf : fallbackOnlyB suf = true) :
    fallbackOnlyB (pre ++ suf) = true := by
  induction pre with
  | nil => simpa using hsuf
  | cons a t ih =>
    have ha : a.ok = true := hpre a (List.mem_cons_self a t)
    have ih' := ih (fun r hr => hpre r (List.mem_cons_of_mem a hr))
    show fallbackOnlyB (a :: (t ++ suf)) = true
    cases htl : t ++ suf with
    | nil => rfl
    | cons b rest =>
      have hbr : fallbackOnlyB (b :: rest) = true := htl ▸ ih'
      simp [fallbackOnlyB, ha, hbr]

theorem fallbackOnlyB_of_allOk (l : List CallRec)
    (h : ∀ r ∈ l, r.ok = true) : fallbackOnlyB l = true := by
  simpa using fallbackOnlyB_append l [] h rfl

/-! ## The onboarding invariant -/

/-- The inductive invariant of the onboarding machine: connection numbers
are allocated fresh, completed flows' connections are closed, account
rows created by onboarding are unique per name and carry the default
cooldown, and every attempt's provider-call log satisfies the
fallback-only failure discipline (all-ok while a flow is mid-call). -/
structure Inv (s : BotState) : Prop where
  conns_lt : ∀ c ∈ s.openConns, c < s.nextConn
  conns_nodup : s.openConns.Nodup
  comp_lt : ∀ p ∈ s.completions, p.2 < s.nextConn
  pend_lt : ∀ obj, s.pending = some obj → obj.conn < s.nextConn
  comp_closed : ∀ p ∈ s.completions, p.2 ∉ s.openConns
  names_nodup : (s.accounts.map (fun r => r.session_name)).Nodup
  ema_default : ∀ r ∈ s.accounts, r.ema_cooldown = DEFAULT_COOLDOWN
  comp_stored : ∀ p ∈ s.completions, ∃ r ∈ s.accounts, r.session_name = p.1
  archive_ok : ∀ l ∈ s.archive, fallbackOnlyB l = true
  log_ok : fallbackOnlyB s.callLog = true
  log_allok : s.fsm ≠ .idle → ∀ r ∈ s.callLog, r.ok = true

theorem inv_add_account_start (s : BotState) (h : Inv s) :
    Inv (add_account_start s) := by
  refine ⟨h.conns_lt, h.conns_nodup, h.comp_lt, h.pend_lt, h.comp_closed,
    h.names_nodup, h.ema_default, h.comp_stored, ?_, rfl, ?_⟩
  · intro l hl
    rcases List.mem_append.mp hl with h1 | h1
    · exact h.archive_ok l h1
    · rw [List.mem_singleton] at h1
      subst h1
      exact h.log_ok
  · intro _ r hr
    exact absurd hr (List.not_mem_nil r)

theorem inv_got_session_name (s : BotState) (t : Str) (h : Inv s)
    (hf : s.fsm ≠ .idle) : Inv (got_session_name s t) := by
  unfold got_session_name
  split_ifs
  · exact h
  · exact ⟨h.conns_lt, h.conns_nodup, h.comp_lt, h.pend_lt, h.comp_closed,
      h.names_nodup, h.ema_default, h.comp_stored, h.archive_ok, h.log_ok,
      fun _ => h.log_allok hf⟩

theorem inv_got_api_id (s : BotState) (t : Str) (h : Inv s)
    (hf : s.fsm ≠ .idle) : Inv (got_api_id s t) := by
  unfold got_api_id
  split_ifs
  · exact ⟨h.conns_lt, h.conns_nodup, h.comp_lt, h.pend_lt, h.comp_closed,
      h.names_nodup, h.ema_default, h.comp_stored, h.archive_ok, h.log_ok,
      fun _ => h.log_allok hf⟩
  · exact h

theorem inv_got_api_hash (s : BotState) (t : Str) (h : Inv s)
    (hf : s.fsm ≠ .idle) : Inv (got_api_hash s t) :=
  ⟨h.conns_lt, h.conns_nodup, h.comp_lt, h.pend_lt, h.comp_closed,
    h.names_nodup, h.ema_default, h.comp_stored, h.archive_ok, h.log_ok,
    fun _ => h.log_allok hf⟩

theorem inv_got_phone (s : BotState) (t : Str) (res : PhoneRes) (h : Inv s)
    (hf : s.fsm ≠ .idle) : Inv (got_phone s t res) := by
  have hallok : ∀ r ∈ s.callLog, r.ok = true := h.log_allok hf
  cases res <;> unfold got_phone
  case connectFail =>
    refine ⟨h.conns_lt, h.conns_nodup, h.comp_lt, h.pend_lt, h.comp_closed,
      h.names_nodup, h.ema_default, h.comp_stored, h.archive_ok, ?_, ?_⟩
    · exact fallbackOnlyB_append _ _ hallok (by decide)
    · intro hne
      exact absurd rfl hne
  case sendCodeFail =>
    refine ⟨?_, h.conns_nodup, ?_, ?_, h.comp_closed, h.names_nodup,
      h.ema_default, h.comp_stored, h.archive_ok, ?_, ?_⟩
    · intro c hc
      exact Nat.lt_succ_of_lt (h.conns_lt c hc)
    · intro p hp
      exact Nat.lt_succ_of_lt (h.comp_lt p hp)
    · intro obj hobj
      exact Nat.lt_succ_of_lt (h.pend_lt obj hobj)
    · exact fallbackOnlyB_append _ _ hallok (by decide)
    · intro hne
      exact absurd rfl hne
  case ok =>
    refine ⟨?_, ?_, ?_, ?_, ?_, h.names_nodup, h.ema_default, h.comp_stored,
      h.archive_ok, ?_, ?_⟩
    · intro c hc
      rcases List.mem_append.mp hc with h1 | h1
      · exact Nat.lt_succ_of_lt (h.conns_lt c h1)
      · rw [List.mem_singleton] at h1
        subst h1
        exact Nat.lt_succ_self _
    · rw [List.nodup_append]
      refine ⟨h.conns_nodup, by simp, ?_⟩
      intro a ha hb
      rw [List.mem_singleton] at hb
      subst hb
      exact Nat.lt_irrefl _ (h.conns_lt _ ha)
    · intro p hp
      exact Nat.lt_succ_of_lt (h.comp_lt p hp)
    · intro obj hobj
      obtain rfl : (⟨s.nextConn, pyStrip t, s.data.session_name, s.data.api_id,
        s.data.api_hash⟩ : PendingObj) = obj := Option.some.inj hobj
      exact Nat.lt_succ_self _
    · intro p hp hmem
      rcases List.mem_append.mp hmem with h1 | h1
      · exact h.comp_closed p hp h1
      · rw [List.mem_singleton] at h1
        exact Nat.lt_irrefl _ (h1 ▸ h.comp_lt p hp)
    · exact fallbackOnlyB_append _ _ hallok (by decide)
    · intro _ r hr
      rcases List.mem_append.mp hr with h1 | h1
      · exact hallok r h1
      · rcases List.mem_cons.mp h1 with rfl | h1
        · rfl
        · rw [List.mem_singleton] at h1
          rw [h1]

theorem inv_completeFlow (s : BotState) (obj : PendingObj) (fileOk : Bool)
    (calls : List CallRec) (h : Inv s) (hp : s.pending = some obj)
    (hallok : ∀ r ∈ s.callLog, r.ok = true)
    (hcalls : fallbackOnlyB (calls ++ [⟨.connect, fileOk⟩]) = true) :
    Inv (completeFlow s obj fileOk calls) := by
  refine ⟨?_, ?_, ?_, ?_, ?_, ?_, ?_, ?_, h.archive_ok, ?_, ?_⟩
  · intro c hc
    exact Nat.lt_succ_of_lt (h.conns_lt c (List.mem_of_mem_erase hc))
  · exact h.conns_nodup.erase _
  · intro p hp'
    rcases List.mem_append.mp hp' with h1 | h1
    · exact Nat.lt_succ_of_lt (h.comp_lt p h1)
    · rw [List.mem_singleton] at h1
      subst h1
      exact Nat.lt_succ_of_lt (h.pend_lt obj hp)
  · intro obj' hobj'
    exact absurd hobj' (by simp [completeFlow])
  · intro p hp' hmem
    rcases List.mem_append.mp hp' with h1 | h1
    · exact h.comp_closed p h1 (List.mem_of_mem_erase hmem)
    · rw [List.mem_singleton] at h1
      subst h1
      exact h.conns_nodup.not_mem_erase hmem
  · exact add_account_meta_nodup _ _ _ h.names_nodup
  · exact add_account_meta_default _ _ _ h.ema_default
  · intro p hp'
    rcases List.mem_append.mp hp' with h1 | h1
    · rcases h.comp_stored p h1 with ⟨r, hr, hrn⟩
      exact ⟨r, add_account_meta_mem _ _ hr, hrn⟩
    · rw [List.mem_singleton] at h1
      subst h1
      exact add_account_meta_stores _ _ _
  · show fallbackOnlyB (s.callLog ++ calls ++ [⟨.connect, fileOk⟩]) = true
    rw [List.append_assoc]
    exact fallbackOnlyB_append _ _ hallok hcalls
  · intro hne
    exact absurd rfl hne

theorem inv_abort_erase (s : BotState) (obj : PendingObj) (h : Inv s)
    (suf : List CallRec) (hsuf : fallbackOnlyB suf = true)
    (hallok : ∀ r ∈ s.callLog, r.ok = true) :
    Inv { s with fsm := .idle, data := {}, pending := none,
                 openConns := s.openConns.erase obj.conn,
                 callLog := s.callLog ++ suf } := by
  refine ⟨?_, h.conns_nodup.erase _, h.comp_lt, ?_, ?_, h.names_nodup,
    h.ema_default, h.comp_stored, h.archive_ok, ?_, ?_⟩
  · intro c hc
    exact h.conns_lt c (List.mem_of_mem_erase hc)
  · intro obj' hobj'
    exact absurd hobj' (by simp)
  · intro p hp hmem
    exact h.comp_closed p hp (List.mem_of_mem_erase hmem)
  · exact fallbackOnlyB_append _ _ hallok hsuf
  · intro hne
    exact absurd rfl hne

theorem inv_clear_only (s : BotState) (h : Inv s) :
    Inv { s with fsm := .idle, data := {} } :=
  ⟨h.conns_lt, h.conns_nodup, h.comp_lt, h.pend_lt, h.comp_closed,
    h.names_nodup, h.ema_default, h.comp_stored, h.archive_ok, h.log_ok,
    fun hne => absurd rfl hne⟩

theorem inv_got_code (s : BotState) (t : Str) (res : CodeRes) (h : Inv s)
    (hf : s.fsm ≠ .idle) : Inv (got_code s t res) := by
  have hallok : ∀ r ∈ s.callLog, r.ok = true := h.log_allok hf
  unfold got_code
  cases hp : s.pending with
  | none =>
    have hcl := inv_clear_only s h
    rw [hp] at hcl
    exact hcl
  | some obj =>
    cases res with
    | passwordNeeded =>
      refine ⟨h.conns_lt, h.conns_nodup, h.comp_lt, ?_, h.comp_closed,
        h.names_nodup, h.ema_default, h.comp_stored, h.archive_ok, ?_, ?_⟩
      · intro obj' hobj'
        exact h.pend_lt obj' (hp ▸ hobj')
      · exact fallbackOnlyB_append _ _ hallok (by decide)
      · intro _ r hr
        rcases List.mem_append.mp hr with h1 | h1
        · exact hallok r h1
        · rw [List.mem_singleton] at h1
          rw [h1]
    | success fileOk =>
      exact inv_completeFlow s obj fileOk _ h hp hallok (by cases fileOk <;> decide)
    | failFallbackOk fileOk =>
      exact inv_completeFlow s obj fileOk _ h hp hallok (by cases fileOk <;> decide)
    | failFallbackFail =>
      exact inv_abort_erase s obj h _ (by decide) hallok

theorem inv_got_password (s : BotState) (t : Str) (res : PwdRes) (h : Inv s)
    (hf : s.fsm ≠ .idle) : Inv (got_password s t res) := by
  have hallok : ∀ r ∈ s.callLog, r.ok = true := h.log_allok hf
  unfold got_password
  cases hp : s.pending with
  | none =>
    have hcl := inv_clear_only s h
    rw [hp] at hcl
    exact hcl
  | some obj =>
    cases res with
    | success fileOk =>
      exact inv_completeFlow s obj fileOk _ h hp hallok (by cases fileOk <;> decide)
    | fail =>
      exact inv_abort_erase s obj h _ (by decide) hallok

theorem inv_step (s : BotState) (e : Ev) (h : Inv s) : Inv (step s e) := by
  cases e with
  | addAccount => exact inv_add_account_start s h
  | text t o =>
    show Inv (match s.fsm with
      | .idle => s
      | .waiting_session_name => got_session_name s t
      | .waiting_api_id => got_api_id s t
      | .waiting_api_hash => got_api_hash s t
      | .waiting_phone => got_phone s t o.phoneRes
      | .waiting_code => got_code s t o.codeRes
      | .waiting_password => got_password s t o.pwdRes)
    cases hf : s.fsm
    case idle => exact h
    case waiting_session_name => exact inv_got_session_name s t h (by simp [hf])
    case waiting_api_id => exact inv_got_api_id s t h (by simp [hf])
    case waiting_api_hash => exact inv_got_api_hash s t h (by simp [hf])
    case waiting_phone => exact inv_got_phone s t o.phoneRes h (by simp [hf])
    case waiting_code => exact inv_got_code s t o.codeRes h (by simp [hf])
    case waiting_password => exact inv_got_password s t o.pwdRes h (by simp [hf])

theorem inv_initState : Inv initState := by
  refine ⟨?_, ?_, ?_, ?_, ?_, ?_, ?_, ?_, ?_, rfl, ?_⟩ <;>
    first
      | exact fun x hx => absurd hx (List.not_mem_nil x)
      | exact fun obj hobj => absurd hobj (by simp [initState])
      | exact List.Pairwise.nil
      | exact fun x hx _ => absurd hx (List.not_mem_nil x)
      | exact fun _ x hx => absurd hx (List.not_mem_nil x)

theorem inv_run (evs : List Ev) : Inv (run evs) := by
  rw [run]
  suffices hgen : ∀ s, Inv s → Inv (evs.foldl step s) from hgen initState inv_initState
  intro s hs
  induction evs generalizing s with
  | nil => exact hs
  | cons e rest ih => exact ih (step s e) (inv_step s e hs)

/-- With pairwise-distinct session names, a stored name is matched by
exactly one row of the accounts table. -/
theorem filter_name_single (db : AccountsDb) (n : Str)
    (hnodup : (db.map (fun r => r.session_name)).Nodup)
    (hex : ∃ r ∈ db, r.session_name = n) :
    (db.filter (fun r => r.session_name == n)).length = 1 := by
  induction db with
  | nil =>
    rcases hex with ⟨r, hr, _⟩
    exact absurd hr (List.not_mem_nil r)
  | cons a t ih =>
    rw [List.map_cons, List.nodup_cons] at hnodup
    by_cases ha : a.session_name = n
    · have ht : t.filter (fun r => r.session_name == n) = [] := by
        rw [List.filter_eq_nil_iff]
        intro r hr hcon
        refine hnodup.1 (List.mem_map.mpr ⟨r, hr, ?_⟩)
        rw [beq_iff_eq] at hcon
        rw [hcon, ha]
      rw [List.filter_cons, if_pos (by simp [ha]), ht]
      rfl
    · rcases hex with ⟨r, hr, hrn⟩
      rcases List.mem_cons.mp hr with rfl | hrt
      · exact absurd hrn ha
      · rw [List.filter_cons, if_neg (by simp [ha])]
        exact ih hnodup.2 ⟨r, hrt, hrn⟩

/-! ## Claim theorems -/

/-- C1: for every onboarding flow that reaches Completed (with or without
the second-factor step; `run` quantifies over all event sequences, so both
sign-in paths are covered), exactly one Account row exists whose
session_name equals the chosen name, its cooldown estimate equals the
configured default, and the flow's provider connection is no longer
open. -/
theorem onboarding_completed_account (evs : List Ev) (n : Str) (c : Nat)
    (hmem : (n, c) ∈ (run evs).completions) :
    ((run evs).accounts.filter (fun r => r.session_name == n)).length = 1 ∧
    (∀ r ∈ (run evs).accounts.filter (fun r => r.session_name == n),
       r.ema_cooldown = DEFAULT_COOLDOWN) ∧
    c ∉ (run evs).openConns := by
  have h := inv_run evs
  refine ⟨filter_name_single _ n h.names_nodup (h.comp_stored (n, c) hmem),
    ?_, h.comp_closed (n, c) hmem⟩
  intro r hr
  exact h.ema_default r (List.mem_of_mem_filter hr)

/-- A provider oracle whose every interaction succeeds. -/
def oracleOk : ProvOracle := {}

/-- A complete happy-path onboarding: name, api id, api hash, phone,
code (no second factor). -/
def traceOnboard : List Ev :=
  [.addAccount, .text (s2l "acc1") oracleOk, .text (s2l "7") oracleOk,
   .text (s2l "h") oracleOk, .text (s2l "+111") oracleOk,
   .text (s2l "12345") oracleOk]

/-- Witness for C1 at the concrete happy-path trace. -/
theorem onboarding_completed_account_witness :
    ((run traceOnboard).accounts.filter
      (fun r => r.session_name == s2l "acc1")).length = 1 ∧
    (0 : Nat) ∉ (run traceOnboard).openConns := by
  have h := onboarding_completed_account traceOnboard (s2l "acc1") 0 (by decide)
  exact ⟨h.1, h.2.2⟩

/-- C2: for an account with a stored estimate, `update_ema` stores and
returns `0.3·observed + 0.7·prev`; the spec scenario
`register("acc1", 42, 120.0)` then `update("acc1", 108.0)` yields
`116.4 = 582/5`. -/
theorem update_ema_formula (db : AccountsDb) (n : Str) (obs : ℚ)
    (r : AccountRow) (h : lookupAccount db n = some r) :
    (update_ema db n obs).2
      = EMA_ALPHA * obs + (1 - EMA_ALPHA) * r.ema_cooldown ∧
    lookupAccount (update_ema db n obs).1 n
      = some { r with ema_cooldown :=
          EMA_ALPHA * obs + (1 - EMA_ALPHA) * r.ema_cooldown } ∧
    (update_ema (add_account_meta [] (s2l "acc1") 42) (s2l "acc1") 108).2
      = 582 / 5 := by
  refine ⟨(update_ema_found db n obs r h).1, (update_ema_found db n obs r h).2, ?_⟩
  have hl : lookupAccount (add_account_meta [] (s2l "acc1") 42) (s2l "acc1")
      = some ⟨s2l "acc1", 42, 120⟩ := by decide
  rw [(update_ema_found _ _ 108 _ hl).1]
  show EMA_ALPHA * 108 + (1 - EMA_ALPHA)
    * (⟨s2l "acc1", 42, (120 : ℚ)⟩ : AccountRow).ema_cooldown = 582 / 5
  norm_num [EMA_ALPHA]

/-- Witness for C2: the spec scenario itself. -/
theorem update_ema_formula_witness :
    (update_ema (add_account_meta [] (s2l "acc1") 42) (s2l "acc1") 108).2
      = 582 / 5 ∧
    lookupAccount (update_ema (add_account_meta [] (s2l "acc1") 42)
        (s2l "acc1") 108).1 (s2l "acc1")
      = some ⟨s2l "acc1", 42, 582 / 5⟩ := by
  have h := update_ema_formula (add_account_meta [] (s2l "acc1") 42)
    (s2l "acc1") 108 ⟨s2l "acc1", 42, 120⟩ (by decide)
  refine ⟨h.2.2, ?_⟩
  rw [h.2.1]
  have hE : EMA_ALPHA * 108 + (1 - EMA_ALPHA)
      * (⟨s2l "acc1", 42, (120 : ℚ)⟩ : AccountRow).ema_cooldown = 582 / 5 := by
    norm_num [EMA_ALPHA]
  rw [hE]

/-- C3: `/report` maps `ok` to an update with observed
`DEFAULT_COOLDOWN·0.9`, `fail` to `DEFAULT_COOLDOWN·1.2`, `flood s` (s a
digit string) to `s` verbatim; every other shape replies with the usage
message and leaves the accounts table unchanged. -/
theorem cmd_report_outcome_mapping (db : AccountsDb) (t : Str) :
    (3 ≤ (pySplit t).length →
      pyStrip ((pySplit t).getD 2 []) = s2l "ok" →
      cmd_report db t =
        ((update_ema db (pyStrip ((pySplit t).getD 1 []))
            (DEFAULT_COOLDOWN * (9 / 10))).1,
         .recorded (update_ema db (pyStrip ((pySplit t).getD 1 []))
            (DEFAULT_COOLDOWN * (9 / 10))).2)) ∧
    (3 ≤ (pySplit t).length →
      pyStrip ((pySplit t).getD 2 []) = s2l "fail" →
      cmd_report db t =
        ((update_ema db (pyStrip ((pySplit t).getD 1 []))
            (DEFAULT_COOLDOWN * (6 / 5))).1,
         .recorded (update_ema db (pyStrip ((pySplit t).getD 1 []))
            (DEFAULT_COOLDOWN * (6 / 5))).2)) ∧
    (3 ≤ (pySplit t).length →
      pyStrip ((pySplit t).getD 2 []) = s2l "flood" →
      4 ≤ (pySplit t).length →
      pyIsDigit ((pySplit t).getD 3 []) = true →
      cmd_report db t =
        ((update_ema db (pyStrip ((pySplit t).getD 1 []))
            ((parseNat ((pySplit t).getD 3 []) : ℚ))).1,
         .recorded (update_ema db (pyStrip ((pySplit t).getD 1 []))
            ((parseNat ((pySplit t).getD 3 []) : ℚ))).2)) ∧
    ((pySplit t).length < 3 ∨
      (pyStrip ((pySplit t).getD 2 []) ≠ s2l "ok" ∧
       pyStrip ((pySplit t).getD 2 []) ≠ s2l "fail" ∧
       ¬(pyStrip ((pySplit t).getD 2 []) = s2l "flood" ∧
         4 ≤ (pySplit t).length ∧
         pyIsDigit ((pySplit t).getD 3 []) = true)) →
      cmd_report db t = (db, .usage)) := by
  refine ⟨?_, ?_, ?_, ?_⟩
  · intro hlen hok
    simp only [cmd_report]
    rw [if_neg (by omega), if_pos hok]
  · intro hlen hfail
    simp only [cmd_report]
    rw [if_neg (by omega), if_neg (by rw [hfail]; decide), if_pos hfail]
  · intro hlen hflood h4 hdig
    simp only [cmd_report]
    rw [if_neg (by omega), if_neg (by rw [hflood]; decide),
      if_neg (by rw [hflood]; decide), if_pos ⟨hflood, h4, hdig⟩]
  · intro hrest
    rcases hrest with hlen | ⟨hok, hfail, hflood⟩
    · simp only [cmd_report]
      rw [if_pos hlen]
    · by_cases hl : (pySplit t).length < 3
      · simp only [cmd_report]
        rw [if_pos hl]
      · simp only [cmd_report]
        rw [if_neg hl, if_neg hok, if_neg hfail, if_neg hflood]

/-- Witness for C3: the spec scenario (estimate 100, default 120, report
`ok` → observed 108 → new estimate 102.4 = 512/5), plus a rejected
shape leaving the table unchanged. -/
theorem cmd_report_outcome_mapping_witness :
    (cmd_report [⟨s2l "acc1", 42, 100⟩] (s2l "/report acc1 ok")).2
      = .recorded (512 / 5) ∧
    cmd_report [⟨s2l "acc1", 42, 100⟩] (s2l "/report acc1 bogus")
      = ([⟨s2l "acc1", 42, 100⟩], .usage) := by
  constructor
  · have h := (cmd_report_outcome_mapping [⟨s2l "acc1", 42, 100⟩]
      (s2l "/report acc1 ok")).1 (by decide) (by decide)
    rw [h]
    have hl : lookupAccount [⟨s2l "acc1", 42, 100⟩]
        (pyStrip ((pySplit (s2l "/report acc1 ok")).getD 1 []))
        = some ⟨s2l "acc1", 42, 100⟩ := by decide
    show ReportReply.recorded (update_ema [⟨s2l "acc1", 42, 100⟩]
      (pyStrip ((pySplit (s2l "/report acc1 ok")).getD 1 []))
      (DEFAULT_COOLDOWN * (9 / 10))).2 = .recorded (512 / 5)
    rw [(update_ema_found _ _ (DEFAULT_COOLDOWN * (9 / 10)) _ hl).1]
    have hE : EMA_ALPHA * (DEFAULT_COOLDOWN * (9 / 10)) + (1 - EMA_ALPHA)
        * (⟨s2l "acc1", 42, (100 : ℚ)⟩ : AccountRow).ema_cooldown = 512 / 5 := by
      norm_num [EMA_ALPHA, DEFAULT_COOLDOWN]
    rw [hE]
  · exact (cmd_report_outcome_mapping [⟨s2l "acc1", 42, 100⟩]
      (s2l "/report acc1 bogus")).2.2.2 (Or.inr ⟨by decide, by decide, by decide⟩)

/-- C4 counterexample to the claimed line count: with exactly one matching
pending entry, the artifact has 3 lines (header, blank separator, one
identifier), not `1 + 1 = 2`. -/
def demoLinks : LinksDb := [⟨s2l "https://t.me/xyz", .unknown, .pending, 0, 0⟩]

theorem export_assist_blank_line_counterexample :
    (pendingExportUrls demoLinks).length = 1 ∧
    (cmd_export_assist demoLinks [] (s2l "acc1")).map List.length = some 3 ∧
    ¬((3 : Nat) = 1 + 1) :=
  ⟨by decide, by decide, by decide⟩

/-- C4 (amended): export with zero matching pending entries yields no
artifact; with at least one it yields the artifact whose lines are the
recommended-delay header, a blank separator line, then one identifier per
line and nothing else — `2 + count` lines in total. -/
theorem export_assist_structure (links : LinksDb) (accounts : AccountsDb)
    (n : Str) :
    (pendingExportUrls links = [] →
      cmd_export_assist links accounts n = none) ∧
    (pendingExportUrls links ≠ [] →
      cmd_export_assist links accounts n =
        some (.header n (emaFor accounts n) :: .blank ::
          (pendingExportUrls links).map .urlLine) ∧
      (ExportLine.header n (emaFor accounts n) :: ExportLine.blank ::
          (pendingExportUrls links).map ExportLine.urlLine).length
        = 2 + (pendingExportUrls links).length) := by
  constructor
  · intro h
    simp only [cmd_export_assist]
    rw [if_pos (List.isEmpty_iff.mpr h)]
  · intro h
    constructor
    · simp only [cmd_export_assist]
      rw [if_neg (fun hc => h (List.isEmpty_iff.mp hc))]
    · simp only [List.length_cons, List.length_map]
      omega

/-- Witness for C4 (amended) at a one-entry links table. -/
theorem export_assist_structure_witness :
    cmd_export_assist demoLinks [] (s2l "acc1")
      = some [.header (s2l "acc1") DEFAULT_COOLDOWN, .blank,
              .urlLine (s2l "https://t.me/xyz")] := by
  have h := (export_assist_structure demoLinks [] (s2l "acc1")).2 (by decide)
  rw [h.1]
  decide

/-- C5: `classify_link` is total into the three categories (the source tag
`unknown` realizes the spec's `unclassified`), deterministic (it is a
function), case-insensitive, and first-match-wins on the spec's three
scenarios. -/
theorem classify_link_total_scenarios (s : Str) :
    (classify_link s = .unknown ∨ classify_link s = .group_invite ∨
      classify_link s = .bot) ∧
    classify_link (pyLower s) = classify_link s ∧
    classify_link (s2l "https://t.me/+AbCd1234") = .group_invite ∧
    classify_link (s2l "@somebot") = .unknown ∧
    classify_link (s2l "https://t.me/examplebot") = .bot := by
  refine ⟨?_, classify_link_pyLower s, by decide, by decide, by decide⟩
  cases classify_link s
  · exact Or.inl rfl
  · exact Or.inr (Or.inl rfl)
  · exact Or.inr (Or.inr rfl)

/-- C6: ingesting the same normalized identifier twice stores exactly one
row, with the category assigned on first ingestion; the second call is a
no-op on the table. -/
theorem ingest_idempotent (links : LinksDb) (t1 t2 : Str)
    (hg1 : ((s2l "http").isPrefixOf t1 || (s2l "@").isPrefixOf t1) = true)
    (hg2 : ((s2l "http").isPrefixOf t2 || (s2l "@").isPrefixOf t2) = true)
    (hstrip : pyStrip t1 = pyStrip t2)
    (habs : ∀ r ∈ links, r.url ≠ pyStrip t1) :
    classify_msg (classify_msg links t1) t2 = classify_msg links t1 ∧
    (classify_msg links t1).filter (fun r => r.url == pyStrip t1) =
      [⟨pyStrip t1, classify_link t1, .pending, 0, 0⟩] := by
  have hd1 : classify_msg links t1
      = links ++ [⟨pyStrip t1, classify_link t1, .pending, 0, 0⟩] := by
    unfold classify_msg
    rw [if_pos hg1]
    unfold insertOrIgnoreLink
    rw [if_neg (by rw [linkPresent_false links (pyStrip t1) habs]; exact
      Bool.false_ne_true)]
  constructor
  · rw [hd1]
    unfold classify_msg
    rw [if_pos hg2]
    unfold insertOrIgnoreLink
    rw [if_pos]
    rw [← hstrip]
    exact linkPresent_true _ _ ⟨pyStrip t1, classify_link t1, .pending, 0, 0⟩
      (List.mem_append.mpr (Or.inr (by simp))) rfl
  · rw [hd1, List.filter_append]
    have h1 : links.filter (fun r => r.url == pyStrip t1) = [] := by
      rw [List.filter_eq_nil_iff]
      intro r hr hcon
      exact habs r hr (by simpa using hcon)
    rw [h1]
    simp

/-- The first spec scenario's identifier, used as the C6 witness input. -/
def ingestDemo : Str := s2l "https://t.me/+abc"

/-- Witness for C6 at a concrete identifier on the empty table. -/
theorem ingest_idempotent_witness :
    classify_msg (classify_msg [] ingestDemo) ingestDemo
      = classify_msg [] ingestDemo ∧
    (classify_msg [] ingestDemo).filter
        (fun r => r.url == pyStrip ingestDemo) =
      [⟨pyStrip ingestDemo, classify_link ingestDemo, .pending, 0, 0⟩] :=
  ingest_idempotent [] ingestDemo ingestDemo (by decide) (by decide) rfl
    (fun r hr => absurd hr (List.not_mem_nil r))

/-- C7: over any sequence of `register`/`update` calls with non-negative
observed seconds, starting from a table whose stored estimates are all
positive (the configured default 120 is positive), every stored cooldown
estimate stays strictly positive. -/
theorem cooldown_positive_invariant (ops : List Op) (db : AccountsDb)
    (hops : ∀ op ∈ ops, obsNonnegB op = true)
    (hdb : ∀ r ∈ db, 0 < r.ema_cooldown) :
    ∀ r ∈ ops.foldl applyOp db, 0 < r.ema_cooldown :=
  foldl_applyOp_pos ops db hops hdb

/-- A concrete call sequence for the C7 witness. -/
def opsDemo : List Op :=
  [.register (s2l "acc1") 42, .update (s2l "acc1") 0, .update (s2l "acc1") 5]

/-- Witness for C7: after register and two updates (observed 0 and 5) the
stored estimate is 60.3 > 0. -/
theorem cooldown_positive_invariant_witness :
    opsDemo.foldl applyOp [] = [⟨s2l "acc1", 42, 603 / 10⟩] ∧
    0 < (⟨s2l "acc1", 42, 603 / 10⟩ : AccountRow).ema_cooldown := by
  have hres : opsDemo.foldl applyOp [] = [⟨s2l "acc1", 42, 603 / 10⟩] := by
    norm_num [opsDemo, applyOp, add_account_meta, update_ema, lookupAccount,
      EMA_ALPHA, DEFAULT_COOLDOWN]
  refine ⟨hres, ?_⟩
  exact cooldown_positive_invariant opsDemo []
    (by decide) (fun r hr => absurd hr (List.not_mem_nil r))
    ⟨s2l "acc1", 42, 603 / 10⟩ (by rw [hres]; exact List.mem_singleton.mpr rfl)

/-- C8 counterexample: when the code sign-in fails generically, the
handler immediately issues the fallback sign-in — a further provider call
after a failed one, so a failure is not terminal as claimed. -/
def traceSignInFail : List Ev :=
  [.addAccount, .text (s2l "acc1") oracleOk, .text (s2l "7") oracleOk,
   .text (s2l "h") oracleOk, .text (s2l "+111") oracleOk,
   .text (s2l "12345") { codeRes := .failFallbackFail }]

theorem signin_fallback_retry_counterexample :
    (run traceSignInFail).callLog =
      [⟨.connect, true⟩, ⟨.sendCode, true⟩,
       ⟨.signInCode, false⟩, ⟨.signInCode, false⟩] ∧
    noCallAfterFailure (run traceSignInFail).callLog = false :=
  ⟨by decide, by decide⟩

/-- C8 (amended): within one flow attempt, the only provider call ever
made after a failed call is the single automatic fallback retry of the
code sign-in (after which a second failure is terminal, and a success
proceeds to persistence); every other provider-call failure is terminal
for the attempt. -/
theorem provider_calls_fallback_only (evs : List Ev) (l : List CallRec)
    (hl : l ∈ (run evs).archive ++ [(run evs).callLog]) :
    fallbackOnlyB l = true := by
  have h := inv_run evs
  rcases List.mem_append.mp hl with h1 | h1
  · exact h.archive_ok l h1
  · rw [List.mem_singleton] at h1
    subst h1
    exact h.log_ok

/-- A trace whose sign-in fails and whose fallback succeeds. -/
def traceFallbackOk : List Ev :=
  [.addAccount, .text (s2l "acc1") oracleOk, .text (s2l "7") oracleOk,
   .text (s2l "h") oracleOk, .text (s2l "+111") oracleOk,
   .text (s2l "12345") { codeRes := .failFallbackOk true }]

/-- Witness for C8 (amended) at the fallback-success trace. -/
theorem provider_calls_fallback_only_witness :
    fallbackOnlyB (run traceFallbackOk).callLog = true :=
  provider_calls_fallback_only traceFallbackOk _ (by decide)

/-- C9: abandoning a flow by starting a new one leaks the old provider
connection — after the second flow stores its connection (number 1), the
first flow's connection (number 0) is still open, and nothing ever closes
it.  This contradicts the spec's leak-avoidance requirement. -/
def traceAbandon : List Ev :=
  [.addAccount, .text (s2l "a") oracleOk, .text (s2l "1") oracleOk,
   .text (s2l "h") oracleOk, .text (s2l "+1") oracleOk,
   .addAccount, .text (s2l "b") oracleOk, .text (s2l "2") oracleOk,
   .text (s2l "h2") oracleOk, .text (s2l "+2") oracleOk]

theorem abandoned_connection_left_open :
    (run traceAbandon).openConns = [0, 1] ∧
    (run traceAbandon).pending.map (fun o => o.conn) = some 1 ∧
    (run traceAbandon).completions = [] :=
  ⟨by decide, by decide, by decide⟩

/-- C10: the links DDL is accepted but the accounts DDL is rejected (its
`ema_cooldown` DEFAULT is a bound parameter, which SQLite forbids in DDL),
so `init_db` raises instead of returning normally. -/
theorem init_db_ddl_param_rejected :
    ddlAccepted linksTableCols = true ∧
    ddlAccepted accountsTableCols = false ∧
    init_db = .error
      (s2l "OperationalError: parameters are not allowed in the accounts DDL") :=
  ⟨rfl, rfl, rfl⟩

end Wanna
